import Mathlib

/-
Verification of the runtime-checked ownership-and-borrowing handle
(`lifetime.hpp`, template class `Lifetime<T>`).

A share group is the state shared by all `Lifetime` objects that borrow the
same value: the owned value (`m_T`), the owner slot (`*m_owner`), the mutator
slot (`*m_mutator`, a nullable pointer to a heap-allocated `LifetimeMutator`),
and the member set (`m_refs`).  Handles are identified by natural-number
tokens (C++ object addresses, never reused).

The mutator slot needs care: in the source, `borrow_mutable` builds the
`LifetimeMutator` with its back-pointer (`m_mutatorAccess`) aimed at a
throwaway heap cell (`new LifetimeMutator*{...}` in the `Lifetime`
constructor, line 49) rather than at the group's shared slot.  Deleting the
`LifetimeMutator` therefore nulls the throwaway cell and leaves the shared
slot pointing at the freed object.  We model the slot as `Option Mut` where
`Mut` records the handle named by the `LifetimeMutator` and whether that
object is still allocated (`live`).  Reading through a dangling slot entry
(a freed `LifetimeMutator`) or a null one is undefined behaviour in the
source; operations that would do so return `none`.
-/

namespace Lifetime

/-- Error kinds, one per distinct `std::runtime_error` thrown by the source
(plus the spec names for the two `move` errors the table lists). -/
inductive Err where
  | notWritable
  | alreadyMutableBorrowed
  | notOwner
  | sameHandle
  | foreignGroup
  | ownerDroppedWithLiveBorrows
  deriving DecidableEq, Repr

/-- The content of a non-null mutator slot: the `LifetimeMutator` object.
`handle` is its `m_mutator` field (which `Lifetime` it grants mutability to);
`live` records whether the object is still allocated.  `live = false` models
the dangling pointer left in the shared slot after `delete *m_mutator`,
because `~LifetimeMutator` nulls the throwaway cell instead of the slot. -/
structure Mut where
  handle : Nat
  live : Bool
  deriving DecidableEq, Repr

/-- The shared state of one share group: `m_T`, `*m_owner`, `*m_mutator`,
and `m_refs` of the source.  (The mutex only serializes; it carries no
state we need.) -/
structure Group (α : Type) where
  value : α
  owner : Nat
  mutator : Option Mut
  members : Finset Nat
  deriving DecidableEq

/-- `Lifetime<T>::from(T&&)`: a fresh group whose single member owns the
value; the mutator slot starts null. -/
def fromVal {α : Type} (v : α) (h : Nat) : Group α :=
  ⟨v, h, none, {h}⟩

/-- `Lifetime<T>::get()`: read the value (no checks, no lock). -/
def get {α : Type} (g : Group α) : α := g.value

/-- `Lifetime<T>::borrow()`: a new handle joins the group (the constructor
inserts `this` into `m_refs`); owner and mutator are untouched. -/
def borrow {α : Type} (g : Group α) (f : Nat) : Group α :=
  { g with members := insert f g.members }

/-- The writability test shared by `set` and `get_mutable`:
`*m_mutator != nullptr && (*m_mutator)->m_mutator == this`, falling back to
`this == *m_owner`.  When the slot holds a freed `LifetimeMutator` the read
of its `m_mutator` field is undefined behaviour (`none`). -/
def writableChk {α : Type} (g : Group α) (h : Nat) : Option Bool :=
  match g.mutator with
  | none => some (decide (h = g.owner))
  | some mu =>
    if mu.live then some (decide (mu.handle = h) || decide (h = g.owner)) else none

/-- `Lifetime<T>::set(T&&)`: check writability, then store; on failure throw
`not-writable` leaving the group unchanged. -/
def set {α : Type} (g : Group α) (h : Nat) (v : α) : Option (Group α × Option Err) :=
  match writableChk g h with
  | none => none
  | some true => some ({ g with value := v }, none)
  | some false => some (g, some Err.notWritable)

/-- `Lifetime<T>::get_mutable()`: same check as `set`; on success return the
value (a mutable reference in the source), never modifying the group. -/
def get_mutable {α : Type} (g : Group α) (h : Nat) : Option (Group α × Except Err α) :=
  match writableChk g h with
  | none => none
  | some true => some (g, Except.ok g.value)
  | some false => some (g, Except.error Err.notWritable)

/-- `Lifetime<T>::borrow_mutable()`: throw `already-mutable-borrowed` when
the slot pointer is non-null (live or dangling — only the pointer is
tested); otherwise the new handle joins the group and a fresh live
`LifetimeMutator` naming it is stored in the slot. -/
def borrow_mutable {α : Type} (g : Group α) (f : Nat) : Group α × Option Err :=
  if g.mutator.isSome then (g, some Err.alreadyMutableBorrowed)
  else ({ g with mutator := some ⟨f, true⟩, members := insert f g.members }, none)

/-- `Lifetime<T>::clone()`: copy the value and build an independent fresh
group via `from`. -/
def clone {α : Type} (g : Group α) (f : Nat) : Group α :=
  fromVal g.value f

/-- `Lifetime<T>::is_mutator()`: the source tests `this->m_mutator != nullptr`
(the slot pointer, non-null for every constructed handle) instead of
`*this->m_mutator`, then dereferences `*m_mutator`.  With an empty slot this
dereferences a null pointer; with a dangling slot it reads a freed object —
both undefined behaviour (`none`). -/
def is_mutator {α : Type} (g : Group α) (h : Nat) : Option Bool :=
  match g.mutator with
  | none => none
  | some mu => if mu.live then some (mu.handle == h) else none

/-- `Lifetime<T>::is_owner()`: `this == *m_owner`. -/
def is_owner {α : Type} (g : Group α) (h : Nat) : Bool :=
  h == g.owner

/-- `Lifetime<T>::move()` (move_out): throw `not-owner` unless the caller is
the owner; otherwise the new handle joins the group and takes the owner slot
(`force_take_ownership`).  The mutator slot is not touched. -/
def move {α : Type} (g : Group α) (h f : Nat) : Group α × Option Err :=
  if h = g.owner then ({ g with owner := f, members := insert f g.members }, none)
  else (g, some Err.notOwner)

/-- Modelled from the spec: the source's `Lifetime<T>::move(Lifetime&)`
(move_to) is ill-formed C++ (it compares `Lifetime*` with `Lifetime**`,
calls `.contains` on a `std::set` pointer, and assigns booleans to the
pointer fields `m_owner`), so it has no executable semantics; spec §4.1
and §9 give the intended contract: `not-owner`, then `same-handle`, then
`foreign-group` checks; on success the owner designation transfers to
`other` and the mutator slot is cleared when the caller held it. -/
def moveTo {α : Type} (g : Group α) (h other : Nat) : Group α × Option Err :=
  if h ≠ g.owner then (g, some Err.notOwner)
  else if other = h then (g, some Err.sameHandle)
  else if other ∉ g.members then (g, some Err.foreignGroup)
  else
    ({ g with owner := other,
              mutator := match g.mutator with
                         | some mu => if mu.handle = h then none else some mu
                         | none => none }, none)

/-- Result of running `~Lifetime()`: the group survives with new state, or
its last member left and the value and bookkeeping were freed. -/
inductive DestroyResult (α : Type) where
  | alive (g : Group α)
  | freed
  deriving DecidableEq

/-- The tail of `~Lifetime()` after the mutator step: erase `this` from
`m_refs`; if `this` owns and references remain, throw
`owner-dropped-with-live-borrows` (the group survives, the owner slot still
naming the dead handle); otherwise free the group when `m_refs` is empty. -/
def destroyCore {α : Type} (g : Group α) (h : Nat) (mut' : Option Mut) :
    DestroyResult α × Option Err :=
  if h = g.owner then
    if 0 < (g.members.erase h).card then
      (DestroyResult.alive ⟨g.value, g.owner, mut', g.members.erase h⟩,
        some Err.ownerDroppedWithLiveBorrows)
    else (DestroyResult.freed, none)
  else if (g.members.erase h).card = 0 then (DestroyResult.freed, none)
  else (DestroyResult.alive ⟨g.value, g.owner, mut', g.members.erase h⟩, none)

/-- `~Lifetime()`: first `delete *m_mutator` when the slot names `this` —
which, because `~LifetimeMutator` nulls the throwaway cell rather than the
shared slot, leaves the slot dangling (`live := false`); reading a dangling
slot here is undefined behaviour (`none`).  Then the removal/teardown tail. -/
def destroy {α : Type} (g : Group α) (h : Nat) :
    Option (DestroyResult α × Option Err) :=
  match g.mutator with
  | none => some (destroyCore g h none)
  | some mu =>
    if mu.live then
      some (destroyCore g h (if mu.handle = h then some ⟨mu.handle, false⟩ else some mu))
    else none

/-- Run a sequence of handle destructions.  The flag records whether any
destructor threw; destroying a handle of an already-freed group, or hitting
undefined behaviour, yields `none` / a raised flag. -/
def runDestroys {α : Type} : Group α → List Nat → Option (DestroyResult α × Bool)
  | g, [] => some (DestroyResult.alive g, false)
  | g, h :: t =>
    match destroy g h with
    | none => none
    | some (DestroyResult.freed, e) => some (DestroyResult.freed, e.isSome || !t.isEmpty)
    | some (DestroyResult.alive g', e) =>
      match runDestroys g' t with
      | none => none
      | some (r, b) => some (r, e.isSome || b)

/-- The mutator slot is null or holds a still-allocated `LifetimeMutator`
(i.e. it is not dangling). -/
def slotOk {α : Type} (g : Group α) : Bool :=
  match g.mutator with
  | none => true
  | some mu => mu.live

/-- Group states reachable through the public operations (a `clone` starts a
fresh group, so it is covered by `init`), including the states a destructor
error leaves behind (the error may be caught and the group used further). -/
inductive Reach {α : Type} : Group α → Prop where
  | init (v : α) (h : Nat) : Reach (fromVal v h)
  | brw {g : Group α} (f : Nat) : Reach g → Reach (borrow g f)
  | brwMut {g g' : Group α} (f : Nat) :
      Reach g → borrow_mutable g f = (g', none) → Reach g'
  | mvOut {g g' : Group α} (h f : Nat) :
      Reach g → move g h f = (g', none) → Reach g'
  | mvTo {g g' : Group α} (h o : Nat) :
      Reach g → moveTo g h o = (g', none) → Reach g'
  | destroyOk {g g' : Group α} (h : Nat) :
      Reach g → destroy g h = some (DestroyResult.alive g', none) → Reach g'
  | destroyErr {g g' : Group α} (h : Nat) (e : Err) :
      Reach g → destroy g h = some (DestroyResult.alive g', some e) → Reach g'

/-- Group states reachable through error-free runs of the public
operations. -/
inductive ReachOk {α : Type} : Group α → Prop where
  | init (v : α) (h : Nat) : ReachOk (fromVal v h)
  | brw {g : Group α} (f : Nat) : ReachOk g → ReachOk (borrow g f)
  | brwMut {g g' : Group α} (f : Nat) :
      ReachOk g → borrow_mutable g f = (g', none) → ReachOk g'
  | mvOut {g g' : Group α} (h f : Nat) :
      ReachOk g → move g h f = (g', none) → ReachOk g'
  | mvTo {g g' : Group α} (h o : Nat) :
      ReachOk g → moveTo g h o = (g', none) → ReachOk g'
  | destroyOk {g g' : Group α} (h : Nat) :
      ReachOk g → destroy g h = some (DestroyResult.alive g', none) → ReachOk g'

/-- Group states reachable through the operations the source can actually
compile (no move_to: instantiating `move(Lifetime&)` is a compile error),
together with the set `U` of handle tokens ever used — new handles are fresh
(C++ objects at distinct addresses, not reused here). -/
inductive ReachC {α : Type} : Group α → Finset Nat → Prop where
  | init (v : α) (h : Nat) : ReachC (fromVal v h) {h}
  | brw {g : Group α} {U : Finset Nat} (f : Nat) :
      ReachC g U → f ∉ U → ReachC (borrow g f) (insert f U)
  | brwMut {g g' : Group α} {U : Finset Nat} (f : Nat) :
      ReachC g U → f ∉ U → borrow_mutable g f = (g', none) → ReachC g' (insert f U)
  | mvOut {g g' : Group α} {U : Finset Nat} (h f : Nat) :
      ReachC g U → f ∉ U → move g h f = (g', none) → ReachC g' (insert f U)
  | destroyStep {g g' : Group α} {U : Finset Nat} (h : Nat) (e : Option Err) :
      ReachC g U → destroy g h = some (DestroyResult.alive g', e) → ReachC g' U

/-- Inversion for a successful `borrow_mutable`: the slot was null and the
fresh handle joined the group as its live mutator. -/
theorem borrow_mutable_ok {α : Type} {g g' : Group α} {f : Nat}
    (hbm : borrow_mutable g f = (g', none)) :
    g.mutator = none ∧
      g' = { g with mutator := some ⟨f, true⟩, members := insert f g.members } := by
  unfold borrow_mutable at hbm
  cases hmu : g.mutator with
  | none =>
    rw [hmu] at hbm
    simp only [Option.isSome_none, Bool.false_eq_true, if_false, Prod.mk.injEq] at hbm
    exact ⟨rfl, hbm.1.symm⟩
  | some mu =>
    rw [hmu] at hbm
    simp at hbm

/-- Inversion for a successful `move` (move_out): the caller owned, and the
fresh handle joined the group and took the owner slot; the mutator slot is
untouched. -/
theorem move_ok {α : Type} {g g' : Group α} {h f : Nat}
    (hm : move g h f = (g', none)) :
    h = g.owner ∧ g' = { g with owner := f, members := insert f g.members } := by
  unfold move at hm
  by_cases ho : h = g.owner
  · rw [if_pos ho] at hm
    simp only [Prod.mk.injEq] at hm
    exact ⟨ho, hm.1.symm⟩
  · rw [if_neg ho] at hm
    simp at hm

/-- Inversion for a successful `moveTo`: the three checks passed, ownership
moved to `other`, members are unchanged, and any surviving slot entry was
already there and was not held by the caller. -/
theorem moveTo_ok {α : Type} {g g' : Group α} {h o : Nat}
    (hm : moveTo g h o = (g', none)) :
    h = g.owner ∧ o ≠ h ∧ o ∈ g.members ∧ g'.value = g.value ∧ g'.owner = o ∧
      g'.members = g.members ∧
      ∀ mu, g'.mutator = some mu → g.mutator = some mu ∧ mu.handle ≠ h := by
  unfold moveTo at hm
  by_cases h1 : h ≠ g.owner
  · rw [if_pos h1] at hm; simp at hm
  · rw [if_neg h1] at hm
    push_neg at h1
    by_cases h2 : o = h
    · rw [if_pos h2] at hm; simp at hm
    · rw [if_neg h2] at hm
      by_cases h3 : o ∉ g.members
      · rw [if_pos h3] at hm; simp at hm
      · rw [if_neg h3] at hm
        push_neg at h3
        simp only [Prod.mk.injEq] at hm
        obtain ⟨hg', -⟩ := hm
        subst hg'
        refine ⟨h1, h2, h3, rfl, rfl, rfl, ?_⟩
        intro mu hmu
        cases hgm : g.mutator with
        | none => simp [hgm] at hmu
        | some mu0 =>
          simp only [hgm] at hmu
          by_cases hh : mu0.handle = h
          · rw [if_pos hh] at hmu; exact absurd hmu (by simp)
          · rw [if_neg hh] at hmu
            simp only [Option.some.injEq] at hmu
            exact ⟨by rw [hmu], by rw [← hmu]; exact hh⟩

/-- Inversion for `destroyCore` returning a surviving group. -/
theorem destroyCore_alive {α : Type} {g : Group α} {h : Nat} {mut' : Option Mut}
    {g' : Group α} {e : Option Err}
    (hd : destroyCore g h mut' = (DestroyResult.alive g', e)) :
    g' = ⟨g.value, g.owner, mut', g.members.erase h⟩ ∧ (g.members.erase h).Nonempty ∧
      (e = none → h ≠ g.owner) ∧
      (e = some Err.ownerDroppedWithLiveBorrows ↔ h = g.owner) := by
  unfold destroyCore at hd
  by_cases ho : h = g.owner
  · rw [if_pos ho] at hd
    by_cases hne : 0 < (g.members.erase h).card
    · rw [if_pos hne] at hd
      simp only [Prod.mk.injEq, DestroyResult.alive.injEq] at hd
      exact ⟨hd.1.symm, Finset.card_pos.mp hne,
        fun hc => absurd (hd.2.trans hc) (by simp), by simp [← hd.2, ho]⟩
    · rw [if_neg hne] at hd; simp at hd
  · rw [if_neg ho] at hd
    by_cases hemp : (g.members.erase h).card = 0
    · rw [if_pos hemp] at hd; simp at hd
    · rw [if_neg hemp] at hd
      simp only [Prod.mk.injEq, DestroyResult.alive.injEq] at hd
      exact ⟨hd.1.symm, Finset.card_pos.mp (Nat.pos_of_ne_zero hemp),
        fun _ => ho, by simp [← hd.2, ho]⟩

/-- Inversion for a destruction that leaves the group alive: the handle was
removed, value and owner slot are untouched, the member set stays non-empty,
the slot entry (if any) descends from the previous one with the same handle,
a surviving live entry was not the destroyed handle's, and an error-free
destruction was not the owner's. -/
theorem destroy_alive {α : Type} {g g' : Group α} {h : Nat} {e : Option Err}
    (hd : destroy g h = some (DestroyResult.alive g', e)) :
    g'.value = g.value ∧ g'.owner = g.owner ∧ g'.members = g.members.erase h ∧
      g'.members.Nonempty ∧
      (∀ mu, g'.mutator = some mu → ∃ mu0, g.mutator = some mu0 ∧ mu0.handle = mu.handle) ∧
      (∀ mu, g'.mutator = some mu → mu.live = true → g.mutator = some mu ∧ mu.handle ≠ h) ∧
      (e = none → h ≠ g.owner) := by
  unfold destroy at hd
  split at hd
  · rename_i hgm
    simp only [Option.some.injEq] at hd
    obtain ⟨hg', hne, hok, _⟩ := destroyCore_alive hd
    subst hg'
    rw [hgm]
    exact ⟨rfl, rfl, rfl, hne, by simp, by simp, hok⟩
  · rename_i mu0 hgm
    split at hd
    · rename_i hl
      simp only [Option.some.injEq] at hd
      obtain ⟨hg', hne, hok, _⟩ := destroyCore_alive hd
      subst hg'
      rw [hgm]
      by_cases hh : mu0.handle = h
      · rw [if_pos hh]
        refine ⟨rfl, rfl, rfl, hne, ?_, ?_, hok⟩
        · intro mu hmu
          simp only [Option.some.injEq] at hmu
          exact ⟨mu0, rfl, by rw [← hmu]⟩
        · intro mu hmu hlive
          simp only [Option.some.injEq] at hmu
          rw [← hmu] at hlive
          simp at hlive
      · rw [if_neg hh]
        refine ⟨rfl, rfl, rfl, hne, ?_, ?_, hok⟩
        · intro mu hmu
          simp only [Option.some.injEq] at hmu
          exact ⟨mu0, rfl, by rw [hmu]⟩
        · intro mu hmu _
          simp only [Option.some.injEq] at hmu
          rw [← hmu]
          exact ⟨rfl, hh⟩
    · simp at hd

/-- Invariant over all reachable group states (destructor errors included):
the member set is non-empty and a live slot entry always names a member. -/
theorem reach_inv {α : Type} {g : Group α} (hr : Reach g) :
    g.members.Nonempty ∧
      ∀ mu, g.mutator = some mu → mu.live = true → mu.handle ∈ g.members := by
  induction hr with
  | init v h =>
    exact ⟨⟨h, Finset.mem_singleton_self h⟩, by intro mu hmu; simp [fromVal] at hmu⟩
  | brw f _ ih =>
    refine ⟨Finset.Nonempty.mono (Finset.subset_insert _ _) ih.1, ?_⟩
    intro mu hmu hl
    exact Finset.mem_insert_of_mem (ih.2 mu hmu hl)
  | brwMut f _ hbm ih =>
    obtain ⟨_, hg'⟩ := borrow_mutable_ok hbm
    subst hg'
    refine ⟨Finset.Nonempty.mono (Finset.subset_insert _ _) ih.1, ?_⟩
    intro mu hmu _
    simp only [Option.some.injEq] at hmu
    rw [← hmu]
    exact Finset.mem_insert_self _ _
  | mvOut h f _ hm ih =>
    obtain ⟨_, hg'⟩ := move_ok hm
    subst hg'
    refine ⟨Finset.Nonempty.mono (Finset.subset_insert _ _) ih.1, ?_⟩
    intro mu hmu hl
    exact Finset.mem_insert_of_mem (ih.2 mu hmu hl)
  | mvTo h o _ hm ih =>
    obtain ⟨_, _, _, _, _, hmem, hmut⟩ := moveTo_ok hm
    rw [hmem]
    refine ⟨ih.1, ?_⟩
    intro mu hmu hl
    exact ih.2 mu (hmut mu hmu).1 hl
  | destroyOk h _ hd ih =>
    obtain ⟨_, _, hmem, hne, _, hmut, _⟩ := destroy_alive hd
    refine ⟨hne, ?_⟩
    intro mu hmu hl
    obtain ⟨hmu0, hh⟩ := hmut mu hmu hl
    rw [hmem]
    exact Finset.mem_erase.mpr ⟨hh, ih.2 mu hmu0 hl⟩
  | destroyErr h e _ hd ih =>
    obtain ⟨_, _, hmem, hne, _, hmut, _⟩ := destroy_alive hd
    refine ⟨hne, ?_⟩
    intro mu hmu hl
    obtain ⟨hmu0, hh⟩ := hmut mu hmu hl
    rw [hmem]
    exact Finset.mem_erase.mpr ⟨hh, ih.2 mu hmu0 hl⟩

/-- Invariant over group states reachable without any error: additionally
the owner slot names a member. -/
theorem reachOk_inv {α : Type} {g : Group α} (hr : ReachOk g) :
    g.owner ∈ g.members := by
  induction hr with
  | init v h => exact Finset.mem_singleton_self h
  | brw f _ ih => exact Finset.mem_insert_of_mem ih
  | brwMut f _ hbm ih =>
    obtain ⟨_, hg'⟩ := borrow_mutable_ok hbm
    subst hg'
    exact Finset.mem_insert_of_mem ih
  | mvOut h f _ hm ih =>
    obtain ⟨_, hg'⟩ := move_ok hm
    subst hg'
    exact Finset.mem_insert_self _ _
  | mvTo h o _ hm ih =>
    obtain ⟨_, _, ho, _, howner, hmem, _⟩ := moveTo_ok hm
    rw [howner, hmem]
    exact ho
  | destroyOk h _ hd ih =>
    obtain ⟨_, howner, hmem, _, _, _, hno⟩ := destroy_alive hd
    rw [howner, hmem]
    exact Finset.mem_erase.mpr ⟨fun hc => (hno rfl) hc.symm, ih⟩

/-- Invariant over group states reachable through the operations the source
can compile, with `U` the tokens ever used: members and the slot's handle
are drawn from `U`, the owner token is in `U`, and the slot's handle is
never the owner — the owner never holds the mutator slot. -/
theorem reachC_inv {α : Type} {g : Group α} {U : Finset Nat} (hr : ReachC g U) :
    g.members ⊆ U ∧ g.owner ∈ U ∧
      ∀ mu, g.mutator = some mu → mu.handle ∈ U ∧ mu.handle ≠ g.owner := by
  induction hr with
  | init v h =>
    exact ⟨Finset.Subset.refl _, Finset.mem_singleton_self h, by
      intro mu hmu; simp [fromVal] at hmu⟩
  | brw f _ hf ih =>
    refine ⟨?_, Finset.mem_insert_of_mem ih.2.1, ?_⟩
    · exact Finset.insert_subset_insert f ih.1
    · intro mu hmu
      exact ⟨Finset.mem_insert_of_mem (ih.2.2 mu hmu).1, (ih.2.2 mu hmu).2⟩
  | brwMut f _ hfresh hbm ih =>
    obtain ⟨_, hg'⟩ := borrow_mutable_ok hbm
    subst hg'
    refine ⟨Finset.insert_subset_insert f ih.1, Finset.mem_insert_of_mem ih.2.1, ?_⟩
    intro mu hmu
    simp only [Option.some.injEq] at hmu
    rw [← hmu]
    refine ⟨Finset.mem_insert_self _ _, ?_⟩
    intro hc
    simp only at hc
    exact hfresh (hc.symm ▸ ih.2.1)
  | mvOut h f _ hfr hm ih =>
    obtain ⟨_, hg'⟩ := move_ok hm
    subst hg'
    refine ⟨Finset.insert_subset_insert f ih.1, Finset.mem_insert_self _ _, ?_⟩
    intro mu hmu
    refine ⟨Finset.mem_insert_of_mem (ih.2.2 mu hmu).1, ?_⟩
    intro hc
    exact hfr ((show mu.handle = f from hc) ▸ (ih.2.2 mu hmu).1)
  | destroyStep h e _ hd ih =>
    obtain ⟨_, howner, hmem, _, hdesc, _, _⟩ := destroy_alive hd
    rw [howner, hmem]
    refine ⟨(Finset.erase_subset _ _).trans ih.1, ih.2.1, ?_⟩
    intro mu hmu
    obtain ⟨mu0, hmu0, hh⟩ := hdesc mu hmu
    rw [← hh]
    exact ih.2.2 mu0 hmu0

/-- Claim C1, amended: for every Handle `h` of a group whose mutator slot is
empty or holds the live (undestroyed) mutator, `write` and `get_mutable`
succeed iff `h` is the group's owner or the group's current mutator, and
otherwise raise `not-writable` returning no value.  (As stated the claim is
false: once the mutator handle has been destroyed the slot dangles and both
operations read the freed `LifetimeMutator` — see the counterexample.) -/
theorem c1_write_get_mutable {α : Type} (g : Group α) (h : Nat) (v : α)
    (hok : slotOk g = true) :
    (set g h v = some ({ g with value := v }, none) ↔
        (h = g.owner ∨ ∃ mu, g.mutator = some mu ∧ mu.handle = h)) ∧
    (get_mutable g h = some (g, Except.ok g.value) ↔
        (h = g.owner ∨ ∃ mu, g.mutator = some mu ∧ mu.handle = h)) ∧
    (¬(h = g.owner ∨ ∃ mu, g.mutator = some mu ∧ mu.handle = h) →
        set g h v = some (g, some Err.notWritable) ∧
        get_mutable g h = some (g, Except.error Err.notWritable)) := by
  cases hmu : g.mutator with
  | none =>
    by_cases ho : h = g.owner
    · simp [set, get_mutable, writableChk, hmu, ho]
    · simp [set, get_mutable, writableChk, hmu, ho]
  | some mu =>
    have hok' : mu.live = true := by simp only [slotOk, hmu] at hok; exact hok
    by_cases hmh : mu.handle = h
    · simp [set, get_mutable, writableChk, hmu, hok', hmh]
    · by_cases ho : h = g.owner
      · simp [set, get_mutable, writableChk, hmu, hok', hmh, ho]
      · simp [set, get_mutable, writableChk, hmu, hok', hmh, ho]

/-- Witness for C1 at a concrete input: a fresh group, owner writes. -/
theorem c1_write_get_mutable_w :
    slotOk (fromVal (1:Int) 0) = true ∧
      get_mutable (fromVal (1:Int) 0) 0 =
        some (fromVal (1:Int) 0, Except.ok (fromVal (1:Int) 0).value) :=
  ⟨rfl, (c1_write_get_mutable (fromVal (1:Int) 0) 0 5 rfl).2.1.mpr (Or.inl rfl)⟩

/-- Counterexample to C1 as stated: build `a = from 1` (handle 0), borrow
mutably (handle 1), destroy the mutator handle.  The slot now dangles
(`some ⟨1, false⟩`), and although handle 0 is the owner, `set` and
`get_mutable` hit the use-after-free read (undefined behaviour, `none`)
instead of succeeding. -/
theorem c1_cex :
    borrow_mutable (fromVal (1:Int) 0) 1 =
      ((⟨1, 0, some ⟨1, true⟩, insert 1 {0}⟩ : Group Int), none) ∧
    destroy (⟨1, 0, some ⟨1, true⟩, insert 1 ({0} : Finset Nat)⟩ : Group Int) 1 =
      some (DestroyResult.alive
        ⟨1, 0, some ⟨1, false⟩, (insert 1 ({0} : Finset Nat)).erase 1⟩, none) ∧
    (⟨1, 0, some ⟨1, false⟩, (insert 1 ({0} : Finset Nat)).erase 1⟩ : Group Int).owner = 0 ∧
    set (⟨1, 0, some ⟨1, false⟩, (insert 1 ({0} : Finset Nat)).erase 1⟩ : Group Int) 0 5 = none ∧
    get_mutable (⟨1, 0, some ⟨1, false⟩, (insert 1 ({0} : Finset Nat)).erase 1⟩ : Group Int) 0 =
      none :=
  ⟨rfl, rfl, rfl, rfl, rfl⟩

/-- Claim C2: `borrow_mutable` raises `already-mutable-borrowed` iff the
group's mutator slot is already set (the source only tests the pointer for
null); when the slot is none the new handle joins the member set and becomes
the group's mutator. -/
theorem c2_borrow_mutable {α : Type} (g : Group α) (f : Nat) :
    ((borrow_mutable g f).2 = some Err.alreadyMutableBorrowed ↔ g.mutator.isSome) ∧
    (g.mutator.isSome → borrow_mutable g f = (g, some Err.alreadyMutableBorrowed)) ∧
    (g.mutator = none →
      borrow_mutable g f =
        ({ g with mutator := some ⟨f, true⟩, members := insert f g.members }, none) ∧
      f ∈ (borrow_mutable g f).1.members ∧ (borrow_mutable g f).1.mutator = some ⟨f, true⟩) := by
  cases hmu : g.mutator with
  | none =>
    refine ⟨by simp [borrow_mutable, hmu], by simp [hmu], fun _ => ⟨?_, ?_, ?_⟩⟩
    · simp [borrow_mutable, hmu]
    · simp [borrow_mutable, hmu]
    · simp [borrow_mutable, hmu]
  | some mu =>
    refine ⟨by simp [borrow_mutable, hmu], fun _ => by simp [borrow_mutable, hmu], ?_⟩
    intro hc
    simp [hmu] at hc

/-- Witness for C2 at a concrete input: fresh group, first mutable borrow. -/
theorem c2_borrow_mutable_w :
    (fromVal (1:Int) 0).mutator = none ∧
      borrow_mutable (fromVal (1:Int) 0) 1 =
        (⟨(fromVal (1:Int) 0).value, (fromVal (1:Int) 0).owner, some ⟨1, true⟩,
            insert 1 (fromVal (1:Int) 0).members⟩, none) :=
  ⟨rfl, ((c2_borrow_mutable (fromVal (1:Int) 0) 1).2.2 rfl).1⟩

/-- Claim C3 (code bug): destroying the mutator handle is supposed to return
the group from OM to O, but the freed `LifetimeMutator` never clears the
group's slot (its back-pointer aims at a throwaway cell), so the slot
dangles: a subsequent `borrow_mutable` raises `already-mutable-borrowed`,
and the owner's `get_mutable` reads freed memory (undefined, `none`)
instead of behaving as before the borrow. -/
theorem c3_mutator_release_eval :
    borrow_mutable (fromVal (1:Int) 0) 1 =
      ((⟨1, 0, some ⟨1, true⟩, insert 1 {0}⟩ : Group Int), none) ∧
    destroy (⟨1, 0, some ⟨1, true⟩, insert 1 ({0} : Finset Nat)⟩ : Group Int) 1 =
      some (DestroyResult.alive
        ⟨1, 0, some ⟨1, false⟩, (insert 1 ({0} : Finset Nat)).erase 1⟩, none) ∧
    (⟨1, 0, some ⟨1, false⟩, (insert 1 ({0} : Finset Nat)).erase 1⟩ : Group Int).mutator ≠
      none ∧
    borrow_mutable (⟨1, 0, some ⟨1, false⟩, (insert 1 ({0} : Finset Nat)).erase 1⟩ : Group Int)
        2 =
      ((⟨1, 0, some ⟨1, false⟩, (insert 1 ({0} : Finset Nat)).erase 1⟩ : Group Int),
        some Err.alreadyMutableBorrowed) ∧
    get_mutable (⟨1, 0, some ⟨1, false⟩, (insert 1 ({0} : Finset Nat)).erase 1⟩ : Group Int) 0 =
      none :=
  ⟨rfl, rfl, by simp, rfl, rfl⟩

/-- Claim C4: for every reachable state, if `h` is the owner then `move_out`
returns a fresh handle that joins the group and is designated owner, `h`
ceases to be owner, and any mutator slot held by `h` is cleared (vacuously:
in no state reachable through the compilable operations does the owner hold
the mutator slot — `reachC_inv`); a non-owner's `move_out` raises
`not-owner`. -/
theorem c4_move_out {α : Type} (g : Group α) (U : Finset Nat) (h f : Nat)
    (hr : ReachC g U) (hf : f ∉ U) :
    (h = g.owner →
      move g h f = ({ g with owner := f, members := insert f g.members }, none) ∧
      f ∈ (move g h f).1.members ∧ (move g h f).1.owner = f ∧
      h ≠ (move g h f).1.owner ∧
      (∀ mu, g.mutator = some mu → mu.handle = h → (move g h f).1.mutator = none)) ∧
    (h ≠ g.owner → move g h f = (g, some Err.notOwner)) := by
  obtain ⟨hsub, hownU, hmut⟩ := reachC_inv hr
  constructor
  · intro ho
    have hmv : move g h f = ({ g with owner := f, members := insert f g.members }, none) := by
      unfold move
      rw [if_pos ho]
    have hne : h ≠ f := by
      intro hc
      apply hf
      rw [← hc, ho]
      exact hownU
    refine ⟨hmv, ?_, ?_, ?_, ?_⟩
    · rw [hmv]
      exact Finset.mem_insert_self f g.members
    · rw [hmv]
    · rw [hmv]
      exact hne
    · intro mu hmu hh
      exact absurd (hh.trans ho) (hmut mu hmu).2
  · intro ho
    unfold move
    rw [if_neg ho]

/-- Witness for C4 at a concrete input: fresh group, owner moves out. -/
theorem c4_move_out_w :
    move (fromVal (5:Int) 0) 0 1 =
      (⟨(fromVal (5:Int) 0).value, 1, (fromVal (5:Int) 0).mutator,
          insert 1 (fromVal (5:Int) 0).members⟩, none) :=
  ((c4_move_out (fromVal (5:Int) 0) {0} 0 1 (ReachC.init 5 0) (by simp)).1 rfl).1

/-- Claim C5 (code bug in the source, contract holds of the spec model):
`moveTo` raises `not-owner` for a non-owner caller, `same-handle` for a
self-transfer, `foreign-group` for a non-member target, and otherwise
transfers the owner designation (clearing a mutator slot held by the
caller), each shown at a concrete input. -/
theorem c5_move_to_eval :
    moveTo (⟨1, 0, none, {0, 1}⟩ : Group Int) 1 0 =
      ((⟨1, 0, none, {0, 1}⟩ : Group Int), some Err.notOwner) ∧
    moveTo (⟨1, 0, none, {0, 1}⟩ : Group Int) 0 0 =
      ((⟨1, 0, none, {0, 1}⟩ : Group Int), some Err.sameHandle) ∧
    moveTo (⟨1, 0, none, {0, 1}⟩ : Group Int) 0 5 =
      ((⟨1, 0, none, {0, 1}⟩ : Group Int), some Err.foreignGroup) ∧
    moveTo (⟨1, 0, none, {0, 1}⟩ : Group Int) 0 1 =
      ((⟨1, 1, none, {0, 1}⟩ : Group Int), none) ∧
    moveTo (⟨1, 0, some ⟨0, true⟩, {0, 1}⟩ : Group Int) 0 1 =
      ((⟨1, 1, none, {0, 1}⟩ : Group Int), none) :=
  ⟨rfl, rfl, rfl, rfl, rfl⟩

/-- Specification of the removal/teardown tail of the destructor: the error
is raised exactly for an owner leaving other members behind, and a surviving
group has the exiting handle removed. -/
theorem destroyCore_spec {α : Type} (g : Group α) (h : Nat) (mut' : Option Mut) :
    ((destroyCore g h mut').2 = some Err.ownerDroppedWithLiveBorrows ↔
        (h = g.owner ∧ (g.members.erase h).Nonempty)) ∧
      ∀ g', (destroyCore g h mut').1 = DestroyResult.alive g' →
        g'.members = g.members.erase h ∧ h ∉ g'.members := by
  unfold destroyCore
  by_cases ho : h = g.owner
  · rw [if_pos ho]
    by_cases hne : 0 < (g.members.erase h).card
    · rw [if_pos hne]
      refine ⟨⟨fun _ => ⟨ho, Finset.card_pos.mp hne⟩, fun _ => rfl⟩, ?_⟩
      intro g' hg'
      simp only [DestroyResult.alive.injEq] at hg'
      rw [← hg']
      exact ⟨rfl, Finset.not_mem_erase h g.members⟩
    · rw [if_neg hne]
      refine ⟨?_, ?_⟩
      · constructor
        · intro hc
          simp at hc
        · intro hc
          exact absurd (Finset.card_pos.mpr hc.2) hne
      · intro g' hg'
        simp at hg'
  · rw [if_neg ho]
    by_cases hemp : (g.members.erase h).card = 0
    · rw [if_pos hemp]
      refine ⟨?_, ?_⟩
      · constructor
        · intro hc
          simp at hc
        · intro hc
          exact absurd hc.1 ho
      · intro g' hg'
        simp at hg'
    · rw [if_neg hemp]
      refine ⟨?_, ?_⟩
      · constructor
        · intro hc
          simp at hc
        · intro hc
          exact absurd hc.1 ho
      · intro g' hg'
        simp only [DestroyResult.alive.injEq] at hg'
        rw [← hg']
        exact ⟨rfl, Finset.not_mem_erase h g.members⟩

/-- Running destructors: an error-free destruction that leaves the group
alive steps the sequence forward. -/
theorem runDestroys_cons {α : Type} {g g' : Group α} {h : Nat} {t : List Nat}
    (hd : destroy g h = some (DestroyResult.alive g', none)) :
    runDestroys g (h :: t) = runDestroys g' t := by
  have hstep : runDestroys g (h :: t) =
      match destroy g h with
      | none => none
      | some (DestroyResult.freed, e) => some (DestroyResult.freed, e.isSome || !t.isEmpty)
      | some (DestroyResult.alive g', e) =>
        match runDestroys g' t with
        | none => none
        | some (r, b) => some (r, e.isSome || b) := rfl
  rw [hstep, hd]
  show (match runDestroys g' t with
        | none => none
        | some (r, b) => some (r, (none : Option Err).isSome || b)) = runDestroys g' t
  cases hrt : runDestroys g' t with
  | none => rfl
  | some rb =>
    cases rb with
    | mk r b => rfl

/-- Destroying all the non-owner members (in any order) and then the owner
raises no error and frees the group, provided the mutator slot is null. -/
theorem runDestroys_clean {α : Type} : ∀ (L : List Nat) (g : Group α),
    g.mutator = none → g.owner ∈ g.members → (∀ x ∈ L, x ≠ g.owner) →
    g.members ⊆ insert g.owner L.toFinset →
    runDestroys g (L ++ [g.owner]) = some (DestroyResult.freed, false) := by
  intro L
  induction L with
  | nil =>
    intro g hmu how _ hsub
    have hmem : g.members = {g.owner} := by
      apply Finset.Subset.antisymm
      · simpa using hsub
      · simpa using how
    have hd : destroy g g.owner = some (DestroyResult.freed, none) := by
      unfold destroy
      rw [hmu]
      unfold destroyCore
      rw [if_pos rfl, hmem]
      simp
    show runDestroys g [g.owner] = some (DestroyResult.freed, false)
    unfold runDestroys
    rw [hd]
    simp
  | cons a t ih =>
    intro g hmu how hall hsub
    have ha : a ≠ g.owner := hall a (List.mem_cons_self a t)
    have hown' : g.owner ∈ g.members.erase a :=
      Finset.mem_erase.mpr ⟨Ne.symm ha, how⟩
    have hd : destroy g a =
        some (DestroyResult.alive ⟨g.value, g.owner, none, g.members.erase a⟩, none) := by
      unfold destroy
      rw [hmu]
      unfold destroyCore
      rw [if_neg (fun hc => ha hc)]
      rw [if_neg (Finset.card_ne_zero_of_mem hown')]
    have hsub' : g.members.erase a ⊆ insert g.owner t.toFinset := by
      intro x hx
      obtain ⟨hxa, hxm⟩ := Finset.mem_erase.mp hx
      have hx2 := hsub hxm
      simp only [List.toFinset_cons, Finset.mem_insert] at hx2 ⊢
      rcases hx2 with h1 | h1 | h1
      · exact Or.inl h1
      · exact absurd h1 hxa
      · exact Or.inr h1
    have hrun := ih ⟨g.value, g.owner, none, g.members.erase a⟩ rfl hown'
      (fun x hx => hall x (List.mem_cons_of_mem a hx)) hsub'
    show runDestroys g (a :: (t ++ [g.owner])) = some (DestroyResult.freed, false)
    rw [runDestroys_cons hd]
    exact hrun

/-- Claim C6, amended: when the group's mutator slot is empty or live,
destroying a handle raises `owner-dropped-with-live-borrows` iff the handle
is the owner and other members remain, and in every surviving group the
exiting handle has been removed from the member set; when the slot is empty,
destroying the non-owner members first and the owner last raises no error
and frees the group.  (As stated the claim is false: once the slot dangles —
a mutator handle was destroyed earlier — every destructor reads the freed
`LifetimeMutator` before removing anything; see the counterexample.) -/
theorem c6_destructor {α : Type} (g : Group α) (h : Nat) (L : List Nat) :
    (slotOk g = true → ∀ r, destroy g h = some r →
      ((r.2 = some Err.ownerDroppedWithLiveBorrows ↔
          (h = g.owner ∧ (g.members.erase h).Nonempty)) ∧
        ∀ g', r.1 = DestroyResult.alive g' →
          g'.members = g.members.erase h ∧ h ∉ g'.members)) ∧
    (slotOk g = true → (destroy g h).isSome) ∧
    (g.mutator = none → g.owner ∈ g.members → (∀ x ∈ L, x ≠ g.owner) →
      g.members ⊆ insert g.owner L.toFinset →
      runDestroys g (L ++ [g.owner]) = some (DestroyResult.freed, false)) := by
  refine ⟨?_, ?_, fun h1 h2 h3 h4 => runDestroys_clean L g h1 h2 h3 h4⟩
  · intro _ r hr
    unfold destroy at hr
    split at hr
    · simp only [Option.some.injEq] at hr
      rw [← hr]
      exact destroyCore_spec g h none
    · split at hr
      · simp only [Option.some.injEq] at hr
        rw [← hr]
        exact destroyCore_spec g h _
      · simp at hr
  · intro hs
    cases hmu : g.mutator with
    | none => simp [destroy, hmu]
    | some mu =>
      have hlive : mu.live = true := by
        simp only [slotOk, hmu] at hs
        exact hs
      simp [destroy, hmu, hlive]

/-- Witness for C6 at a concrete input: group of two handles, owner 0 and
borrower 1; destroying the owner first raises the error with 0 removed;
destroying 1 then 0 frees the group silently. -/
theorem c6_destructor_w :
    destroy (⟨1, 0, none, {0, 1}⟩ : Group Int) 0 =
      some (DestroyResult.alive ⟨1, 0, none, ({0, 1} : Finset Nat).erase 0⟩,
        some Err.ownerDroppedWithLiveBorrows) ∧
    ((0:Nat) = 0 ∧ (({0, 1} : Finset Nat).erase 0).Nonempty) ∧
    runDestroys (⟨1, 0, none, {0, 1}⟩ : Group Int) [1, 0] =
      some (DestroyResult.freed, false) := by
  have hc := c6_destructor (⟨1, 0, none, {0, 1}⟩ : Group Int) 0 [1]
  refine ⟨rfl, ?_, ?_⟩
  · exact (hc.1 rfl _ rfl).1.mp rfl
  · exact hc.2.2 rfl (by simp) (by simp) (by simp)

/-- Counterexample to C6 as stated: make handle 1 the mutator of a fresh
group and destroy it — the slot dangles.  Destroying the remaining owner
(handle 0), which by the claim must raise no error and release the group,
instead reads the freed `LifetimeMutator` (undefined behaviour, `none`). -/
theorem c6_cex :
    borrow_mutable (fromVal (1:Int) 0) 1 =
      ((⟨1, 0, some ⟨1, true⟩, insert 1 {0}⟩ : Group Int), none) ∧
    destroy (⟨1, 0, some ⟨1, true⟩, insert 1 ({0} : Finset Nat)⟩ : Group Int) 1 =
      some (DestroyResult.alive
        ⟨1, 0, some ⟨1, false⟩, (insert 1 ({0} : Finset Nat)).erase 1⟩, none) ∧
    destroy (⟨1, 0, some ⟨1, false⟩, (insert 1 ({0} : Finset Nat)).erase 1⟩ : Group Int) 0 =
      none :=
  ⟨rfl, rfl, rfl⟩

/-- Claim C7, amended: every reachable group state (destructor errors
included) has a non-empty member set and, whenever the mutator slot holds a
live mutator, that mutator is a member (at most one exists — the slot is
single); in every state reachable without errors the owner is a member.
(As stated the claim is false: after `owner-dropped-with-live-borrows` the
owner slot names the removed handle, and after a mutator handle's
destruction the slot dangles — neither none nor a live member; see the
counterexample.) -/
theorem c7_invariants :
    (∀ (α : Type) (g : Group α), Reach g →
      g.members.Nonempty ∧
        ∀ mu, g.mutator = some mu → mu.live = true → mu.handle ∈ g.members) ∧
    (∀ (α : Type) (g : Group α), ReachOk g → g.owner ∈ g.members) :=
  ⟨fun _ _ hr => reach_inv hr, fun _ _ hr => reachOk_inv hr⟩

/-- Witness for C7 at a concrete input: a freshly created group. -/
theorem c7_invariants_w :
    (fromVal (0:Int) 7).members.Nonempty ∧
      (fromVal (0:Int) 7).owner ∈ (fromVal (0:Int) 7).members :=
  ⟨(c7_invariants.1 Int (fromVal 0 7) (Reach.init 0 7)).1,
    c7_invariants.2 Int (fromVal 0 7) (ReachOk.init 0 7)⟩

/-- Counterexample to C7 as stated: (i) destroying the owner of a two-member
group raises the error and leaves a reachable state whose owner slot names a
non-member; (ii) destroying the mutator handle leaves a reachable state
whose mutator slot is neither none nor a live member of the group. -/
theorem c7_cex :
    destroy (borrow (fromVal (1:Int) 0) 1) 0 =
      some (DestroyResult.alive ⟨1, 0, none, (insert 1 ({0} : Finset Nat)).erase 0⟩,
        some Err.ownerDroppedWithLiveBorrows) ∧
    Reach (⟨1, 0, none, (insert 1 ({0} : Finset Nat)).erase 0⟩ : Group Int) ∧
    (⟨1, 0, none, (insert 1 ({0} : Finset Nat)).erase 0⟩ : Group Int).owner ∉
      (⟨1, 0, none, (insert 1 ({0} : Finset Nat)).erase 0⟩ : Group Int).members ∧
    destroy (⟨1, 0, some ⟨1, true⟩, insert 1 ({0} : Finset Nat)⟩ : Group Int) 1 =
      some (DestroyResult.alive
        ⟨1, 0, some ⟨1, false⟩, (insert 1 ({0} : Finset Nat)).erase 1⟩, none) ∧
    Reach (⟨1, 0, some ⟨1, false⟩, (insert 1 ({0} : Finset Nat)).erase 1⟩ : Group Int) ∧
    (⟨1, 0, some ⟨1, false⟩, (insert 1 ({0} : Finset Nat)).erase 1⟩ : Group Int).mutator ≠
      none ∧
    (1:Nat) ∉
      (⟨1, 0, some ⟨1, false⟩, (insert 1 ({0} : Finset Nat)).erase 1⟩ : Group Int).members := by
  refine ⟨rfl, ?_, by simp, rfl, ?_, by simp, by simp⟩
  · exact Reach.destroyErr 0 Err.ownerDroppedWithLiveBorrows
      (Reach.brw 1 (Reach.init 1 0)) rfl
  · exact Reach.destroyOk 1 (Reach.brwMut 1 (Reach.init 1 0) rfl) rfl

/-- Claim C8: `clone` builds an independent fresh group holding a copy of
the caller's value at clone time: a subsequent successful write through the
original group changes only that group and reads through the clone still see
the clone-time value, and a write through the clone succeeds (its handle
owns the new group) touching only the clone's group. -/
theorem c8_clone {α : Type} (g : Group α) (f h : Nat) (v w : α) :
    clone g f = fromVal g.value f ∧
    (clone g f).value = g.value ∧ (clone g f).owner = f ∧
    (clone g f).mutator = none ∧ (clone g f).members = {f} ∧
    (∀ g', set g h v = some (g', none) → g'.value = v ∧ (clone g f).value = g.value) ∧
    set (clone g f) f w = some ((⟨w, f, none, {f}⟩ : Group α), none) := by
  refine ⟨rfl, rfl, rfl, rfl, rfl, ?_, ?_⟩
  · intro g' hs
    unfold set at hs
    cases hw : writableChk g h with
    | none =>
      rw [hw] at hs
      simp at hs
    | some b =>
      rw [hw] at hs
      cases b with
      | true =>
        simp only [Option.some.injEq, Prod.mk.injEq] at hs
        exact ⟨by rw [← hs.1], rfl⟩
      | false => simp at hs
  · unfold set writableChk clone fromVal
    simp

/-- Witness for C8 at the spec's concrete scenario: `a = from 15`,
`b = a.clone()`, `a.write(99)`; then `a` reads 99 and `b` still reads 15. -/
theorem c8_clone_w :
    (⟨99, 0, none, {0}⟩ : Group Int).value = 99 ∧
      (clone (fromVal (15:Int) 0) 1).value = 15 :=
  (c8_clone (fromVal (15:Int) 0) 1 0 99 5).2.2.2.2.2.1
    (⟨99, 0, none, {0}⟩ : Group Int) rfl

/-- Claim C9 (code bug): on a group whose mutator slot is none, `is_mutator`
must return `false`, but the source tests the always-non-null slot pointer
instead of the slot content and then dereferences the null content —
undefined behaviour (`none`) at the very first state `from` creates. -/
theorem c9_is_mutator_eval :
    (fromVal (1:Int) 0).mutator = none ∧
      is_mutator (fromVal (1:Int) 0) 0 = none ∧
      is_owner (fromVal (1:Int) 0) 0 = true :=
  ⟨rfl, rfl, rfl⟩

/-- Claim C10: whenever `set`, `get_mutable`, `borrow_mutable`, `move`
(move_out) or `moveTo` raises an error, the group it returns is exactly the
group it was given — the failed operation has no side effect. -/
theorem c10_no_side_effect {α : Type} (g : Group α) (h f o : Nat) (v : α) :
    (∀ r e, set g h v = some (r, some e) → r = g) ∧
    (∀ r e, get_mutable g h = some (r, Except.error e) → r = g) ∧
    (∀ r e, borrow_mutable g f = (r, some e) → r = g) ∧
    (∀ r e, move g h f = (r, some e) → r = g) ∧
    (∀ r e, moveTo g h o = (r, some e) → r = g) := by
  refine ⟨?_, ?_, ?_, ?_, ?_⟩
  · intro r e hs
    unfold set at hs
    cases hw : writableChk g h with
    | none => rw [hw] at hs; simp at hs
    | some b =>
      rw [hw] at hs
      cases b with
      | true => simp at hs
      | false =>
        simp only [Option.some.injEq, Prod.mk.injEq] at hs
        exact hs.1.symm
  · intro r e hs
    unfold get_mutable at hs
    cases hw : writableChk g h with
    | none => rw [hw] at hs; simp at hs
    | some b =>
      rw [hw] at hs
      cases b with
      | true => simp at hs
      | false =>
        simp only [Option.some.injEq, Prod.mk.injEq] at hs
        exact hs.1.symm
  · intro r e hs
    unfold borrow_mutable at hs
    by_cases hm : g.mutator.isSome
    · rw [if_pos hm] at hs
      simp only [Prod.mk.injEq] at hs
      exact hs.1.symm
    · rw [if_neg hm] at hs
      simp at hs
  · intro r e hs
    unfold move at hs
    by_cases ho : h = g.owner
    · rw [if_pos ho] at hs
      simp at hs
    · rw [if_neg ho] at hs
      simp only [Prod.mk.injEq] at hs
      exact hs.1.symm
  · intro r e hs
    unfold moveTo at hs
    by_cases h1 : h ≠ g.owner
    · rw [if_pos h1] at hs
      simp only [Prod.mk.injEq] at hs
      exact hs.1.symm
    · rw [if_neg h1] at hs
      by_cases h2 : o = h
      · rw [if_pos h2] at hs
        simp only [Prod.mk.injEq] at hs
        exact hs.1.symm
      · rw [if_neg h2] at hs
        by_cases h3 : o ∉ g.members
        · rw [if_pos h3] at hs
          simp only [Prod.mk.injEq] at hs
          exact hs.1.symm
        · rw [if_neg h3] at hs
          simp at hs

/-- Witness for C10 at a concrete input: a non-member, non-owner handle 5
writes into a fresh group and is rejected without a state change. -/
theorem c10_no_side_effect_w :
    set (fromVal (1:Int) 0) 5 7 = some (fromVal (1:Int) 0, some Err.notWritable) ∧
      fromVal (1:Int) 0 = fromVal (1:Int) 0 :=
  ⟨rfl, (c10_no_side_effect (fromVal (1:Int) 0) 5 0 0 7).1 (fromVal (1:Int) 0)
    Err.notWritable rfl⟩

end Lifetime
